import Mathlib

/-!
# Verification of the `rate` token-bucket rate limiter

A shallow embedding of the Go package `rate` (github.com/pippellia-btc/rate).

Modelling conventions:
* `time.Time` and `time.Duration` are both modelled as `Int` (nanoseconds);
  `time.Since(t)` becomes `now - t` for an explicit `now : Int` threaded
  through every operation.
* Go's `/` on integers truncates toward zero; it is modelled by `Int.tdiv`,
  which has the same rounding convention.
* `float64` token balances are modelled as `ℚ`; the claims only involve
  values on which `float64` arithmetic is exact.
* The bucket map `map[K]*Bucket` is modelled as a function `K → Option Bucket`;
  in-place mutation through the pointer becomes writing the updated bucket
  back into the map.
* Go's `(value, error)` returns are modelled as pairs with an `Option String`
  error component; `errors.New(msg)` becomes `some msg`.
* The `sync` locks serialize the operations; the embedding gives the
  sequential semantics of one locked operation at a time.
-/

namespace Rate

/-- Go struct `Bucket` (rate.go): token balance plus last-refill timestamp.
The `sync.Mutex` field is a concurrency artifact with no sequential content. -/
structure Bucket where
  Tokens : ℚ
  LastRefill : Int
deriving DecidableEq, Repr

/-- Go interface `Refiller[K comparable]` (rate.go): `NewBucket` builds the
bucket for a new entity, `Refill` updates a bucket in place and may return an
error.  `Refill` receives the current time explicitly; it returns the mutated
bucket together with the Go error value. -/
structure Refiller (K : Type) where
  NewBucket : K → Int → Bucket
  Refill : K → Int → Bucket → Bucket × Option String

/-- Go struct `Limiter[K comparable]` (rate.go): the entity→bucket map and
the refill policy.  The `sync.RWMutex` has no sequential content. -/
structure Limiter (K : Type) where
  buckets : K → Option Bucket
  refiller : Refiller K

/-- Go function `NewLimiter` (rate.go): empty map, policy bound. -/
def NewLimiter (K : Type) (r : Refiller K) : Limiter K :=
  { buckets := fun _ => none, refiller := r }

/-- Writing a bucket into the map: models both `l.buckets[entity] = bucket`
and in-place mutation of the bucket pointed to by `l.buckets[entity]`. -/
def Limiter.setBucket {K : Type} [DecidableEq K] (l : Limiter K) (entity : K)
    (b : Bucket) : Limiter K :=
  { l with buckets := fun k => if k = entity then some b else l.buckets k }

/-- The resolve-or-create step shared by `Allow` and `Penalize` (rate.go):
look the entity up; on a miss, create its bucket via `Refiller.NewBucket` and
insert it.  Returns the entity's bucket and the possibly-extended limiter. -/
def Limiter.resolveOrCreate {K : Type} [DecidableEq K] (l : Limiter K)
    (entity : K) (now : Int) : Bucket × Limiter K :=
  match l.buckets entity with
  | some b => (b, l)
  | none =>
      let b := l.refiller.NewBucket entity now
      (b, l.setBucket entity b)

/-- Go method `Limiter.Allow` (rate.go, lines 165–204): reject negative
costs with an error, accept zero cost without touching state, otherwise
resolve-or-create the bucket, refill it, and debit the cost when affordable.
Returns `((allowed, error), limiter after the call)`. -/
def Limiter.Allow {K : Type} [DecidableEq K] (l : Limiter K) (entity : K)
    (cost : ℚ) (now : Int) : (Bool × Option String) × Limiter K :=
  if cost < 0 then ((false, some "limiter.Allow: cost must be non-negative"), l)
  else if cost = 0 then ((true, none), l)
  else
    let p := l.resolveOrCreate entity now
    let r := p.2.refiller.Refill entity now p.1
    match r.2 with
    | some e => ((false, some e), p.2.setBucket entity r.1)
    | none =>
        if r.1.Tokens < cost then ((false, none), p.2.setBucket entity r.1)
        else ((true, none),
          p.2.setBucket entity { Tokens := r.1.Tokens - cost, LastRefill := r.1.LastRefill })

/-- Go method `Limiter.Penalize` (rate.go, lines 213–242): reject negative
amounts with an error, accept zero amounts without touching state, otherwise
resolve-or-create the bucket and unconditionally subtract the amount, with no
refill.  Returns `(error, limiter after the call)`. -/
def Limiter.Penalize {K : Type} [DecidableEq K] (l : Limiter K) (entity : K)
    (cost : ℚ) (now : Int) : Option String × Limiter K :=
  if cost < 0 then (some "limiter.Penalize: cost must be non-negative", l)
  else if cost = 0 then (none, l)
  else
    let p := l.resolveOrCreate entity now
    (none, p.2.setBucket entity { Tokens := p.1.Tokens - cost, LastRefill := p.1.LastRefill })

/-- Modelled from the spec: the repository's `Limiter.Balance` method is not
among the source files (only the tests in part_004 call it).  Per the spec,
`balance(entity)` returns the entity's current balance without side effects,
`0` if the entity has no bucket yet, and neither creates a bucket nor
triggers a refill — hence it is a pure read of the limiter state. -/
def Limiter.Balance {K : Type} (l : Limiter K) (entity : K) : ℚ :=
  match l.buckets entity with
  | some b => b.Tokens
  | none => 0

/-- Go struct `NoRefill[K comparable]` (part_003): fixed initial balance,
no replenishment. -/
structure NoRefill where
  InitialTokens : ℚ
deriving DecidableEq, Repr

/-- Go method `NoRefill.NewBucket` (part_003): initial tokens, `LastRefill`
set to `time.Now()`. -/
def NoRefill.NewBucket (r : NoRefill) (now : Int) : Bucket :=
  { Tokens := r.InitialTokens, LastRefill := now }

/-- Go method `NoRefill.Refill` (part_003): a no-op. -/
def NoRefill.toRefiller (r : NoRefill) (K : Type) : Refiller K :=
  { NewBucket := fun _ now => r.NewBucket now
    Refill := fun _ _ b => (b, none) }

/-- Go struct `FlatRefiller[K comparable]` (rate.go / part_003 / part_004). -/
structure FlatRefiller where
  InitialTokens : ℚ
  MaxTokens : ℚ
  TokensPerInterval : ℚ
  Interval : Int
deriving DecidableEq, Repr

/-- Go method `FlatRefiller.NewBucket` (rate.go, lines 101–106). -/
def FlatRefiller.NewBucket (r : FlatRefiller) (now : Int) : Bucket :=
  { Tokens := r.InitialTokens, LastRefill := now }

/-- Go method `FlatRefiller.Refill` (rate.go, lines 108–121): no-op for a
non-positive interval; otherwise compute `refills := time.Since(b.LastRefill)
/ r.Interval` (Go integer division truncates toward zero, hence `Int.tdiv`),
stop if zero, else cap-add the earned tokens and advance `LastRefill` by
exactly `refills * Interval`. -/
def FlatRefiller.Refill (r : FlatRefiller) (now : Int) (b : Bucket) : Bucket :=
  if r.Interval ≤ 0 then b
  else
    let refills : Int := Int.tdiv (now - b.LastRefill) r.Interval
    if refills = 0 then b
    else
      { Tokens := min r.MaxTokens (b.Tokens + (refills : ℚ) * r.TokensPerInterval)
        LastRefill := b.LastRefill + refills * r.Interval }

/-- `FlatRefiller` as a `Refiller` (its Go `Refill` always returns `nil`). -/
def FlatRefiller.toRefiller (r : FlatRefiller) (K : Type) : Refiller K :=
  { NewBucket := fun _ now => r.NewBucket now
    Refill := fun _ now b => (r.Refill now b, none) }

/-- The number of whole intervals elapsed between `last` and `now`, written
as the specification says it: natural-number division of the elapsed time by
the interval. -/
def wholeIntervals (last now interval : Int) : Nat :=
  (now - last).toNat / interval.toNat

/-- Iterating `k` unit-cost `Allow` calls for the same entity, returning the
final limiter state (used for the sequential content of the test claims). -/
def iterAllow {K : Type} [DecidableEq K] (l : Limiter K) (entity : K)
    (now : Int) : Nat → Limiter K
  | 0 => l
  | k + 1 => ((iterAllow l entity now k).Allow entity 1 now).2

/-- The balance a no-refill bucket of initial balance `N` holds after `k`
unit-cost `Allow` calls: `N - min k N`. -/
def noRefillBal (N k : ℕ) : ℚ := ((N - min k N : ℕ) : ℚ)

/-! ## Helper lemmas -/

/-- Go's truncated division of a non-negative elapsed time by a positive
interval is exactly the number of whole intervals elapsed. -/
theorem tdiv_eq_wholeIntervals (last now interval : Int) (hi : 0 < interval)
    (h : last ≤ now) :
    Int.tdiv (now - last) interval = (wholeIntervals last now interval : Int) := by
  have h1 : ((now - last).toNat : Int) = now - last := Int.toNat_of_nonneg (by omega)
  have h2 : ((interval).toNat : Int) = interval := Int.toNat_of_nonneg (by omega)
  rw [wholeIntervals]
  rw [Int.ofNat_tdiv, h1, h2]

theorem setBucket_refiller {K : Type} [DecidableEq K] (l : Limiter K)
    (e : K) (b : Bucket) : (l.setBucket e b).refiller = l.refiller := rfl

theorem setBucket_same {K : Type} [DecidableEq K] (l : Limiter K)
    (e : K) (b : Bucket) : (l.setBucket e b).buckets e = some b := by
  simp [Limiter.setBucket]

theorem setBucket_other {K : Type} [DecidableEq K] (l : Limiter K)
    (e k : K) (b : Bucket) (hk : k ≠ e) :
    (l.setBucket e b).buckets k = l.buckets k := by
  simp [Limiter.setBucket, hk]

theorem noRefillBal_zero (N : ℕ) : noRefillBal N 0 = (N : ℚ) := by
  simp [noRefillBal]

theorem noRefill_arith (N k : ℕ) :
    ((1 : ℚ) ≤ noRefillBal N k ↔ k < N) ∧
    ((if (1 : ℚ) ≤ noRefillBal N k then noRefillBal N k - 1 else noRefillBal N k)
      = noRefillBal N (k + 1)) := by
  have h1 : (1 : ℚ) ≤ noRefillBal N k ↔ 1 ≤ N - min k N := by
    rw [noRefillBal]; exact Nat.one_le_cast
  refine ⟨by rw [h1]; omega, ?_⟩
  by_cases h : k < N
  · rw [if_pos (h1.mpr (by omega))]
    rw [noRefillBal, noRefillBal]
    rw [show min k N = k by omega, show min (k + 1) N = k + 1 by omega,
      Nat.cast_sub (by omega), Nat.cast_sub (by omega)]
    push_cast
    ring
  · have hc : ¬ ((1 : ℚ) ≤ noRefillBal N k) := by rw [h1]; omega
    rw [if_neg hc, noRefillBal, noRefillBal]
    norm_cast
    omega

/-- One unit-cost `Allow` call under the no-refill policy, entity already
bucketed: the call succeeds exactly when the balance is at least 1, debiting
one token in that case. -/
theorem noRefill_allow_some {K : Type} [DecidableEq K] (l : Limiter K) (e : K)
    (now : Int) (r : NoRefill) (b : Bucket) (hr : l.refiller = r.toRefiller K)
    (hb : l.buckets e = some b) :
    (l.Allow e 1 now).1 = (decide (1 ≤ b.Tokens), none) ∧
    (l.Allow e 1 now).2.buckets e
      = some ⟨if 1 ≤ b.Tokens then b.Tokens - 1 else b.Tokens, b.LastRefill⟩ ∧
    (l.Allow e 1 now).2.refiller = l.refiller := by
  have hnn : ¬ ((1 : ℚ) < 0) := by norm_num
  have hnz : ¬ ((1 : ℚ) = 0) := by norm_num
  simp only [Limiter.Allow, if_neg hnn, if_neg hnz, Limiter.resolveOrCreate, hb, hr,
    NoRefill.toRefiller]
  by_cases h : b.Tokens < 1
  · simp only [if_pos h, decide_eq_false (not_le.mpr h), if_neg (not_le.mpr h)]
    exact ⟨trivial, setBucket_same _ _ _, (setBucket_refiller _ _ _).trans hr⟩
  · simp only [if_neg h, decide_eq_true (not_lt.mp h), if_pos (not_lt.mp h)]
    exact ⟨trivial, setBucket_same _ _ _, (setBucket_refiller _ _ _).trans hr⟩

/-- One unit-cost `Allow` call under the no-refill policy, unseen entity: a
bucket holding the initial balance is created, and the call succeeds exactly
when that balance is at least 1, debiting one token in that case. -/
theorem noRefill_allow_none {K : Type} [DecidableEq K] (l : Limiter K) (e : K)
    (now : Int) (r : NoRefill) (hr : l.refiller = r.toRefiller K)
    (hb : l.buckets e = none) :
    (l.Allow e 1 now).1 = (decide (1 ≤ r.InitialTokens), none) ∧
    (l.Allow e 1 now).2.buckets e
      = some ⟨if 1 ≤ r.InitialTokens then r.InitialTokens - 1 else r.InitialTokens, now⟩ ∧
    (l.Allow e 1 now).2.refiller = l.refiller := by
  have hnn : ¬ ((1 : ℚ) < 0) := by norm_num
  have hnz : ¬ ((1 : ℚ) = 0) := by norm_num
  simp only [Limiter.Allow, if_neg hnn, if_neg hnz, Limiter.resolveOrCreate, hb, hr,
    NoRefill.toRefiller, NoRefill.NewBucket, setBucket_refiller]
  by_cases h : r.InitialTokens < 1
  · simp only [if_pos h, decide_eq_false (not_le.mpr h), if_neg (not_le.mpr h)]
    exact ⟨trivial, setBucket_same _ _ _,
      ((setBucket_refiller _ _ _).trans (setBucket_refiller _ _ _)).trans hr⟩
  · simp only [if_neg h, decide_eq_true (not_lt.mp h), if_pos (not_lt.mp h)]
    exact ⟨trivial, setBucket_same _ _ _,
      ((setBucket_refiller _ _ _).trans (setBucket_refiller _ _ _)).trans hr⟩

/-- Invariant for claim C2: after `k` unit-cost `Allow` calls on entity `e`
of a fresh no-refill limiter with initial balance `N`, the policy is
unchanged, no bucket exists when `k = 0`, and otherwise the bucket holds
exactly `N - min k N` tokens. -/
theorem iterAllow_invariant (K : Type) [DecidableEq K] (e : K) (N : ℕ) (now : Int) :
    ∀ k : ℕ,
      (iterAllow (NewLimiter K ((NoRefill.mk N).toRefiller K)) e now k).refiller
          = (NoRefill.mk (N : ℚ)).toRefiller K ∧
      (iterAllow (NewLimiter K ((NoRefill.mk N).toRefiller K)) e now k).buckets e
          = if k = 0 then none else some ⟨noRefillBal N k, now⟩ := by
  intro k
  induction k with
  | zero => exact ⟨rfl, rfl⟩
  | succ k ih =>
    obtain ⟨hr, hb⟩ := ih
    by_cases hk : k = 0
    · subst hk
      have hb0 : (iterAllow (NewLimiter K ((NoRefill.mk N).toRefiller K)) e now 0).buckets e
          = none := by simpa using hb
      obtain ⟨h1, h2, h3⟩ :=
        noRefill_allow_none _ e now (NoRefill.mk (N : ℚ)) hr hb0
      refine ⟨?_, ?_⟩
      · show ((iterAllow _ e now 0).Allow e 1 now).2.refiller = _
        rw [h3, hr]
      · show ((iterAllow _ e now 0).Allow e 1 now).2.buckets e = _
        rw [h2, if_neg (Nat.succ_ne_zero 0)]
        have := (noRefill_arith N 0).2
        rw [noRefillBal_zero] at this
        rw [show (NoRefill.mk (N : ℚ)).InitialTokens = (N : ℚ) from rfl, this]
    · have hbk : (iterAllow (NewLimiter K ((NoRefill.mk N).toRefiller K)) e now k).buckets e
          = some ⟨noRefillBal N k, now⟩ := by rw [hb, if_neg hk]
      obtain ⟨h1, h2, h3⟩ :=
        noRefill_allow_some _ e now (NoRefill.mk (N : ℚ)) ⟨noRefillBal N k, now⟩ hr hbk
      refine ⟨?_, ?_⟩
      · show ((iterAllow _ e now k).Allow e 1 now).2.refiller = _
        rw [h3, hr]
      · show ((iterAllow _ e now k).Allow e 1 now).2.buckets e = _
        rw [h2, if_neg (Nat.succ_ne_zero k)]
        rw [show (Bucket.mk (noRefillBal N k) now).Tokens = noRefillBal N k from rfl]
        rw [(noRefill_arith N k).2]


end Rate

namespace Rate

/-! ## The claims -/

/-- Claim C1: for a positive `Interval`, `FlatRefiller.Refill` computes the
number of whole intervals elapsed since `LastRefill`; zero elapsed whole
intervals is a no-op, otherwise the balance becomes
`min MaxTokens (Tokens + n * TokensPerInterval)` and `LastRefill` advances by
exactly `n * Interval`; a non-positive `Interval` makes `Refill` a no-op; and
with `max = 100`, `per_interval = 10`, `interval = 1h`: a bucket at 10 tokens
refilled 2 intervals ago refills to 30 with its timestamp advanced by exactly
2 intervals, one refilled 24 intervals ago caps at 100, and one refilled under
1 interval ago is unchanged. -/
theorem C1_flat_refill :
    (∀ (r : FlatRefiller) (now : Int) (b : Bucket), r.Interval ≤ 0 →
        r.Refill now b = b) ∧
    (∀ (r : FlatRefiller) (now : Int) (b : Bucket), 0 < r.Interval →
        b.LastRefill ≤ now →
        (wholeIntervals b.LastRefill now r.Interval = 0 → r.Refill now b = b) ∧
        (wholeIntervals b.LastRefill now r.Interval ≠ 0 →
          r.Refill now b =
            { Tokens := min r.MaxTokens (b.Tokens +
                (wholeIntervals b.LastRefill now r.Interval : ℚ) * r.TokensPerInterval)
              LastRefill := b.LastRefill +
                (wholeIntervals b.LastRefill now r.Interval : Int) * r.Interval })) ∧
    FlatRefiller.Refill ⟨0, 100, 10, 3600000000000⟩ 7200000000000 ⟨10, 0⟩
      = ⟨30, 7200000000000⟩ ∧
    FlatRefiller.Refill ⟨0, 100, 10, 3600000000000⟩ 86400000000000 ⟨10, 0⟩
      = ⟨100, 86400000000000⟩ ∧
    FlatRefiller.Refill ⟨0, 100, 10, 3600000000000⟩ 1800000000000 ⟨10, 0⟩
      = ⟨10, 0⟩ := by
  refine ⟨?_, ?_, ?_, ?_, ?_⟩
  · intro r now b h
    simp [FlatRefiller.Refill, h]
  · intro r now b hi hb
    have hd := tdiv_eq_wholeIntervals b.LastRefill now r.Interval hi hb
    constructor
    · intro h0
      simp [FlatRefiller.Refill, not_le.mpr hi, hd, h0]
    · intro h0
      have hne : (wholeIntervals b.LastRefill now r.Interval : Int) ≠ 0 := by
        exact_mod_cast h0
      simp only [FlatRefiller.Refill, if_neg (not_le.mpr hi), hd, if_neg hne]
      push_cast
      ring_nf
  · simp +decide [FlatRefiller.Refill]
    rw [(by decide : Int.tdiv 7200000000000 3600000000000 = (2 : Int))]
    norm_num
  · simp +decide [FlatRefiller.Refill]
    rw [(by decide : Int.tdiv 86400000000000 3600000000000 = (24 : Int))]
    norm_num
  · simp +decide [FlatRefiller.Refill]

/-- Witness for C1 at a concrete configuration. -/
theorem C1_flat_refill_witness :
    FlatRefiller.Refill ⟨0, 100, 10, 10⟩ 3 ⟨5, 0⟩ = ⟨5, 0⟩ :=
  (C1_flat_refill.2.1 ⟨0, 100, 10, 10⟩ 3 ⟨5, 0⟩ (by decide) (by decide)).1
    (by decide)

/-- Claim C10, counterexample: the claim quantifies over every `FlatRefiller`
configuration with a positive `Interval`, but with a negative
`TokensPerInterval` (`⟨0, 100, -1000, 1⟩`) a bucket at 110 tokens (above
`MaxTokens = 100`) is refilled after one whole interval to `-890`, not down to
`MaxTokens`. -/
theorem C10_counterexample :
    (0 : Int) < 1 ∧ (100 : ℚ) < 110 ∧
    FlatRefiller.Refill ⟨0, 100, -1000, 1⟩ 1 ⟨110, 0⟩ = ⟨-890, 1⟩ ∧
    (-890 : ℚ) ≠ 100 := by
  refine ⟨by decide, by norm_num, ?_, by norm_num⟩
  simp +decide [FlatRefiller.Refill]
  norm_num

/-- Claim C10 (amended with `0 ≤ TokensPerInterval`): for a `FlatRefiller`
with positive `Interval` and non-negative `TokensPerInterval`, a bucket whose
balance exceeds `MaxTokens` is brought down to exactly `MaxTokens` by `Refill`
once at least one whole interval has elapsed. -/
theorem C10_refill_lowers_to_max (r : FlatRefiller) (b : Bucket) (now : Int)
    (hi : 0 < r.Interval) (hp : 0 ≤ r.TokensPerInterval)
    (hb : r.MaxTokens < b.Tokens) (he : r.Interval ≤ now - b.LastRefill) :
    (r.Refill now b).Tokens = r.MaxTokens := by
  have h1 : (1 : Int) ≤ Int.tdiv (now - b.LastRefill) r.Interval := by
    rw [Int.tdiv_eq_ediv (by omega) (by omega)]
    calc (1 : Int) = r.Interval / r.Interval := (Int.ediv_self (by omega)).symm
    _ ≤ (now - b.LastRefill) / r.Interval := Int.ediv_le_ediv hi he
  have hne : Int.tdiv (now - b.LastRefill) r.Interval ≠ 0 := by omega
  simp only [FlatRefiller.Refill, if_neg (not_le.mpr hi), if_neg hne]
  have hcast : (0 : ℚ) ≤ (Int.tdiv (now - b.LastRefill) r.Interval : ℚ) := by
    exact_mod_cast le_trans zero_le_one h1
  have : r.MaxTokens ≤ b.Tokens +
      (Int.tdiv (now - b.LastRefill) r.Interval : ℚ) * r.TokensPerInterval := by
    have := mul_nonneg hcast hp
    linarith
  exact min_eq_left this

/-- Witness for C10 at a concrete configuration: max 100, one token per
interval of 10ns, bucket at 110 tokens refilled one interval later. -/
theorem C10_refill_lowers_to_max_witness :
    (FlatRefiller.Refill ⟨0, 100, 1, 10⟩ 10 ⟨110, 0⟩).Tokens = 100 :=
  C10_refill_lowers_to_max ⟨0, 100, 1, 10⟩ ⟨110, 0⟩ 10 (by decide)
    (by norm_num) (by norm_num) (by decide)

/-- Claim C7: a negative cost makes `Allow` return `false` with an error and
`Penalize` return an error, and in both cases the limiter is left completely
unchanged. -/
theorem C7_negative_cost {K : Type} [DecidableEq K] (l : Limiter K) (e : K)
    (cost : ℚ) (now : Int) (hc : cost < 0) :
    l.Allow e cost now
        = ((false, some "limiter.Allow: cost must be non-negative"), l) ∧
    l.Penalize e cost now
        = (some "limiter.Penalize: cost must be non-negative", l) := by
  constructor
  · simp [Limiter.Allow, hc]
  · simp [Limiter.Penalize, hc]

/-- Witness for C7: a fresh `Nat`-keyed no-refill limiter, entity 0, cost -1. -/
theorem C7_negative_cost_witness :
    (NewLimiter Nat ((NoRefill.mk 100).toRefiller Nat)).Allow 0 (-1) 5
        = ((false, some "limiter.Allow: cost must be non-negative"),
           NewLimiter Nat ((NoRefill.mk 100).toRefiller Nat)) ∧
    (NewLimiter Nat ((NoRefill.mk 100).toRefiller Nat)).Penalize 0 (-1) 5
        = (some "limiter.Penalize: cost must be non-negative",
           NewLimiter Nat ((NoRefill.mk 100).toRefiller Nat)) :=
  C7_negative_cost (NewLimiter Nat ((NoRefill.mk 100).toRefiller Nat)) 0
    (-1) 5 (by norm_num)

/-- Claim C8: `Allow` with cost 0 returns `true` with no error and returns
the limiter unchanged — no bucket creation, no refill, no balance change. -/
theorem C8_zero_cost {K : Type} [DecidableEq K] (l : Limiter K) (e : K)
    (now : Int) : l.Allow e 0 now = ((true, none), l) := by
  simp [Limiter.Allow]

/-- Claim C9: `Penalize` with amount 0 returns `nil` and leaves the limiter
completely unchanged (in particular no bucket is created for an unseen
entity), while a positive-amount `Penalize` on an unseen entity does create a
bucket, initialized by the refiller's `NewBucket` and then debited. -/
theorem C9_zero_penalize {K : Type} [DecidableEq K] (l : Limiter K) (e : K)
    (a : ℚ) (now : Int) :
    l.Penalize e 0 now = (none, l) ∧
    (0 < a → l.buckets e = none →
      (l.Penalize e a now).2.buckets e =
        some { Tokens := (l.refiller.NewBucket e now).Tokens - a
               LastRefill := (l.refiller.NewBucket e now).LastRefill }) := by
  constructor
  · simp [Limiter.Penalize]
  · intro ha hb
    simp only [Limiter.Penalize, if_neg (not_lt.mpr ha.le), if_neg (ne_of_gt ha),
      Limiter.resolveOrCreate, hb]
    exact setBucket_same _ _ _

/-- Witness for C9: unseen entity 0, amount 3, no-refill policy with 100
initial tokens: the created bucket holds 97 tokens. -/
theorem C9_zero_penalize_witness :
    ((NewLimiter Nat ((NoRefill.mk 100).toRefiller Nat)).Penalize 0 3 5).2.buckets 0
      = some { Tokens := (100 : ℚ) - 3, LastRefill := 5 } :=
  (C9_zero_penalize (NewLimiter Nat ((NoRefill.mk 100).toRefiller Nat)) 0 3 5).2
    (by norm_num) rfl

/-- Claim C3, counterexample: on an entity with no prior bucket, `Penalize`
does not leave the balance at `0 - amount`; the bucket is first created by
the refiller's `NewBucket`.  With a no-refill policy whose initial balance is
100, penalizing the unseen entity 0 by 50 leaves the balance at 50, not at
`0 - 50` (this matches the repository's own `TestPenalizeUnknownEntity`). -/
theorem C3_counterexample :
    (NewLimiter Nat ((NoRefill.mk 100).toRefiller Nat)).buckets 0 = none ∧
    ((NewLimiter Nat ((NoRefill.mk 100).toRefiller Nat)).Penalize 0 50 7).2.Balance 0
      = 50 ∧
    (50 : ℚ) ≠ 0 - 50 := by
  refine ⟨rfl, ?_, by norm_num⟩
  simp +decide [NewLimiter, Limiter.Penalize, Limiter.resolveOrCreate,
    NoRefill.toRefiller, NoRefill.NewBucket, Limiter.setBucket, Limiter.Balance]
  norm_num

/-- Claim C3 (amended): for every entity whose bucket has balance B and every
non-negative amount, `Penalize` succeeds and leaves the balance at
`B - amount`, even when that is negative; for an entity with no prior bucket
and a positive amount, `Penalize` creates the bucket via the refiller's
`NewBucket` and leaves the balance at `NewBucket(entity).Tokens - amount`
(which equals `0 - amount` exactly when new buckets start empty); a zero
amount on an unseen entity leaves it bucketless, with balance 0. -/
theorem C3_penalize {K : Type} [DecidableEq K] (l : Limiter K) (e : K)
    (b : Bucket) (amount : ℚ) (now : Int) (ha : 0 ≤ amount) :
    (l.buckets e = some b →
        (l.Penalize e amount now).1 = none ∧
        (l.Penalize e amount now).2.Balance e = b.Tokens - amount) ∧
    (l.buckets e = none → 0 < amount →
        (l.Penalize e amount now).1 = none ∧
        (l.Penalize e amount now).2.Balance e
          = (l.refiller.NewBucket e now).Tokens - amount) ∧
    (l.buckets e = none → amount = 0 →
        (l.Penalize e amount now).2.buckets e = none ∧
        (l.Penalize e amount now).2.Balance e = 0) := by
  refine ⟨?_, ?_, ?_⟩
  · intro hb
    rcases eq_or_lt_of_le ha with h0 | h0
    · simp [Limiter.Penalize, ← h0, Limiter.Balance, hb]
    · refine ⟨?_, ?_⟩
      · simp [Limiter.Penalize, not_lt.mpr ha, ne_of_gt h0]
      · simp only [Limiter.Penalize, if_neg (not_lt.mpr ha), if_neg (ne_of_gt h0),
          Limiter.resolveOrCreate, hb, Limiter.Balance, setBucket_same]
  · intro hb h0
    refine ⟨?_, ?_⟩
    · simp [Limiter.Penalize, not_lt.mpr ha, ne_of_gt h0]
    · simp only [Limiter.Penalize, if_neg (not_lt.mpr ha), if_neg (ne_of_gt h0),
        Limiter.resolveOrCreate, hb, Limiter.Balance, setBucket_same]
  · intro hb h0
    simp [Limiter.Penalize, h0, Limiter.Balance, hb]

/-- Witness for C3: the amended behaviours at concrete inputs — an existing
bucket at 100 tokens penalized by 150 ends at −50, and an unseen entity
penalized by 50 under a 100-token no-refill policy ends at 50. -/
theorem C3_penalize_witness :
    (((NewLimiter Nat ((NoRefill.mk 100).toRefiller Nat)).setBucket 0 ⟨100, 5⟩).Penalize
        0 150 7).2.Balance 0 = (100 : ℚ) - 150 ∧
    ((NewLimiter Nat ((NoRefill.mk 100).toRefiller Nat)).Penalize 1 50 7).2.Balance 1
      = (100 : ℚ) - 50 :=
  ⟨((C3_penalize ((NewLimiter Nat ((NoRefill.mk 100).toRefiller Nat)).setBucket 0
        ⟨100, 5⟩) 0 ⟨100, 5⟩ 150 7 (by norm_num)).1 (by simp [Limiter.setBucket])).2,
   ((C3_penalize (NewLimiter Nat ((NoRefill.mk 100).toRefiller Nat)) 1 ⟨0, 0⟩ 50 7
        (by norm_num)).2.1 rfl (by norm_num)).2⟩

/-- Claim C6: `Balance` returns the entity's current token balance, `0` when
the entity has no bucket yet; the modelled operation is a pure read of the
limiter state, so it mutates nothing, creates no bucket and triggers no
refill. -/
theorem C6_balance {K : Type} (l : Limiter K) (e : K) :
    (l.buckets e = none → l.Balance e = 0) ∧
    (∀ b : Bucket, l.buckets e = some b → l.Balance e = b.Tokens) := by
  constructor
  · intro h; simp [Limiter.Balance, h]
  · intro b h; simp [Limiter.Balance, h]

/-- Witness for C6: on a limiter holding a bucket of 42 tokens for entity 0
and nothing for entity 1, `Balance` reads 42 and 0 respectively. -/
theorem C6_balance_witness :
    ((NewLimiter Nat ((NoRefill.mk 100).toRefiller Nat)).setBucket 0 ⟨42, 5⟩).Balance 0
      = 42 ∧
    ((NewLimiter Nat ((NoRefill.mk 100).toRefiller Nat)).setBucket 0 ⟨42, 5⟩).Balance 1
      = 0 :=
  ⟨(C6_balance ((NewLimiter Nat ((NoRefill.mk 100).toRefiller Nat)).setBucket 0
      ⟨42, 5⟩) 0).2 ⟨42, 5⟩ (by simp [Limiter.setBucket]),
   (C6_balance ((NewLimiter Nat ((NoRefill.mk 100).toRefiller Nat)).setBucket 0
      ⟨42, 5⟩) 1).1 (by simp [Limiter.setBucket, NewLimiter])⟩


/-- Claim C2: on a fresh limiter with the no-refill policy and initial
balance `N`, the `(k+1)`-th unit-cost `Allow` call on an entity returns
`true` exactly when `k < N` and never errs — so calls 1 through `N` succeed,
the `(N+1)`-th fails, and every later call fails too. -/
theorem C2_no_refill (K : Type) [DecidableEq K] (e : K) (N : ℕ) (now : Int) (k : ℕ) :
    ((iterAllow (NewLimiter K ((NoRefill.mk N).toRefiller K)) e now k).Allow e 1 now).1
      = (decide (k < N), none) := by
  obtain ⟨hr, hb⟩ := iterAllow_invariant K e N now k
  by_cases hk : k = 0
  · subst hk
    have hb0 : (iterAllow (NewLimiter K ((NoRefill.mk N).toRefiller K)) e now 0).buckets e
        = none := by simpa using hb
    rw [(noRefill_allow_none _ e now (NoRefill.mk (N : ℚ)) hr hb0).1]
    congr 1
    rw [decide_eq_decide]
    show (1 : ℚ) ≤ (N : ℚ) ↔ 0 < N
    rw [Nat.one_le_cast]
    omega
  · have hbk : (iterAllow (NewLimiter K ((NoRefill.mk N).toRefiller K)) e now k).buckets e
        = some ⟨noRefillBal N k, now⟩ := by rw [hb, if_neg hk]
    rw [(noRefill_allow_some _ e now (NoRefill.mk (N : ℚ)) ⟨noRefillBal N k, now⟩ hr hbk).1]
    congr 1
    rw [decide_eq_decide]
    exact (noRefill_arith N k).1

/-- Claim C4: for a positive cost, `Allow` evaluates the request against the
refilled bucket — the existing one or, for an unseen entity, the one created
by the refiller's `NewBucket` — returning `true` exactly when the refilled
balance covers the cost; on failure the bucket keeps the refilled value with
nothing deducted, on success exactly the cost is deducted, and no other
entity's bucket is touched. -/
theorem C4_allow {K : Type} [DecidableEq K] (l : Limiter K) (e : K)
    (cost : ℚ) (now : Int) (b : Bucket) (hc : 0 < cost)
    (hb : l.buckets e = some b ∨ (l.buckets e = none ∧ b = l.refiller.NewBucket e now))
    (hok : (l.refiller.Refill e now b).2 = none) :
    (l.Allow e cost now).1
        = (decide (cost ≤ (l.refiller.Refill e now b).1.Tokens), none) ∧
    (l.Allow e cost now).2.buckets e =
      some (if cost ≤ (l.refiller.Refill e now b).1.Tokens
        then { Tokens := (l.refiller.Refill e now b).1.Tokens - cost
               LastRefill := (l.refiller.Refill e now b).1.LastRefill }
        else (l.refiller.Refill e now b).1) ∧
    (∀ k, k ≠ e → (l.Allow e cost now).2.buckets k = l.buckets k) ∧
    (l.Allow e cost now).2.refiller = l.refiller := by
  have hnn : ¬ (cost < 0) := not_lt.mpr hc.le
  have hnz : ¬ (cost = 0) := ne_of_gt hc
  rcases hb with hbe | ⟨hbe, rfl⟩
  · simp only [Limiter.Allow, if_neg hnn, if_neg hnz, Limiter.resolveOrCreate, hbe, hok]
    by_cases h : (l.refiller.Refill e now b).1.Tokens < cost
    · simp only [if_pos h, decide_eq_false (not_le.mpr h), if_neg (not_le.mpr h)]
      exact ⟨trivial, setBucket_same _ _ _, fun k hk => setBucket_other _ _ _ _ hk, rfl⟩
    · simp only [if_neg h, decide_eq_true (not_lt.mp h), if_pos (not_lt.mp h)]
      exact ⟨trivial, setBucket_same _ _ _, fun k hk => setBucket_other _ _ _ _ hk, rfl⟩
  · simp only [Limiter.Allow, if_neg hnn, if_neg hnz, Limiter.resolveOrCreate, hbe,
      setBucket_refiller, hok]
    by_cases h : (l.refiller.Refill e now (l.refiller.NewBucket e now)).1.Tokens < cost
    · simp only [if_pos h, decide_eq_false (not_le.mpr h), if_neg (not_le.mpr h)]
      refine ⟨trivial, setBucket_same _ _ _, fun k hk => ?_, rfl⟩
      rw [setBucket_other _ _ _ _ hk, setBucket_other _ _ _ _ hk]
    · simp only [if_neg h, decide_eq_true (not_lt.mp h), if_pos (not_lt.mp h)]
      refine ⟨trivial, setBucket_same _ _ _, fun k hk => ?_, rfl⟩
      rw [setBucket_other _ _ _ _ hk, setBucket_other _ _ _ _ hk]

/-- Witness for C4: a fresh no-refill limiter with 5 initial tokens allows
entity 0 a cost of 2. -/
theorem C4_allow_witness :
    ((NewLimiter Nat ((NoRefill.mk 5).toRefiller Nat)).Allow 0 2 3).1 = (true, none) := by
  have h := (C4_allow (NewLimiter Nat ((NoRefill.mk 5).toRefiller Nat)) 0 2 3 ⟨5, 3⟩
    (by norm_num) (Or.inr ⟨rfl, rfl⟩) rfl).1
  rw [h]
  simp only [NewLimiter, NoRefill.toRefiller, Prod.mk.injEq]
  norm_num

end Rate
